import Mathlib

/-!
Verification of the tasmota-homekit state-synchronization core against its
natural-language specification.  The Go source is shallowly embedded: pure
logic becomes Lean functions, the mutable per-plug state map becomes an
association list that is passed and returned explicitly, `time.Time` values
become nanoseconds-since-epoch naturals (with `0` the zero time, matching
`Time.IsZero`), and `float64` metric fields become rationals (the code only
copies and compares them, never does arithmetic).  Go field names are kept.
-/

namespace TasmotaHomeKit

/-- Nanoseconds per second, the unit of Go `time.Duration` arithmetic. -/
def nsPerSecond : Int := 1000000000

/-- Runtime state of a plug, from `plugs.State` (src/unnamed/part_013:87-98).
`LastUpdated` and `LastSeen` are `time.Time` values modelled as nanoseconds
since epoch, `0` being Go's zero time; the four `float64` metrics are
modelled as rationals. -/
structure State where
  ID : String := ""
  Name : String := ""
  On : Bool := false
  Power : ℚ := 0
  Voltage : ℚ := 0
  Current : ℚ := 0
  Energy : ℚ := 0
  LastUpdated : Nat := 0
  MQTTConnected : Bool := false
  LastSeen : Nat := 0
deriving DecidableEq, Repr

/-- Names of the mutable `State` fields that a delta can list in its
`updated_fields` set (the repository's own test constructs the list
`["On", "MQTTConnected", "LastSeen", "LastUpdated"]`,
src/state_sync_test.go:137). -/
inductive StateField where
  | On | Power | Voltage | Current | Energy | LastUpdated | LastSeen | MQTTConnected
deriving DecidableEq, Repr

/-- Partial state delta, from `plugs.StateChangedEvent`
(src/unnamed/part_013:100-104).  The copy of the struct under src carries no
`UpdatedFields` member, but the repository's tests construct one
(src/state_sync_test.go:137); producers that omit it are modelled by `none`
(the legacy path). -/
structure StateChangedEvent where
  PlugID : String
  EventState : State
  UpdatedFields : Option (List StateField) := none
deriving DecidableEq, Repr

/-- The legacy zero-time merge performed by `Manager.ProcessStateEvents`
(src/plug.go:816-860): copy `LastSeen`/`MQTTConnected` when the delta's
`LastSeen` is non-zero, and copy `LastUpdated`, `On` and the four metrics when
the delta's `LastUpdated` is non-zero. -/
def mergeLegacy (stored delta : State) : State :=
  let s1 :=
    if delta.LastSeen ≠ 0 then
      { stored with LastSeen := delta.LastSeen, MQTTConnected := delta.MQTTConnected }
    else stored
  if delta.LastUpdated ≠ 0 then
    { s1 with
      LastUpdated := delta.LastUpdated
      On := delta.On
      Power := delta.Power
      Voltage := delta.Voltage
      Current := delta.Current
      Energy := delta.Energy }
  else s1

/-- Modelled from the spec: copying one listed field of the delta into the
stored state.  The `updated_fields` merge branch of the Reconciler's delta
loop is not present under src (the `StateChangedEvent` copy there lacks the
member while the repository's tests construct it); the spec says "If
`updated_fields` present: copy exactly the listed fields from `delta` into
`state`". -/
def copyField (acc delta : State) (f : StateField) : State :=
  match f with
  | .On => { acc with On := delta.On }
  | .Power => { acc with Power := delta.Power }
  | .Voltage => { acc with Voltage := delta.Voltage }
  | .Current => { acc with Current := delta.Current }
  | .Energy => { acc with Energy := delta.Energy }
  | .LastUpdated => { acc with LastUpdated := delta.LastUpdated }
  | .LastSeen => { acc with LastSeen := delta.LastSeen }
  | .MQTTConnected => { acc with MQTTConnected := delta.MQTTConnected }

/-- Modelled from the spec: copy exactly the listed fields from the delta into
the stored state (used when `updated_fields` is present). -/
def mergeWithFields (stored delta : State) (fs : List StateField) : State :=
  fs.foldl (fun acc f => copyField acc delta f) stored

/-- The delta merge applied by the Reconciler's delta loop for one event:
the `updated_fields` branch is modelled from the spec, the legacy branch is
`Manager.ProcessStateEvents` (src/plug.go:816-860). -/
def mergeStateEvent (stored : State) (e : StateChangedEvent) : State :=
  match e.UpdatedFields with
  | some fs => mergeWithFields stored e.EventState fs
  | none => mergeLegacy stored e.EventState

/-- Note payload of the derived connection classification.  Go renders
`neverSeen` as the string "Never seen" and `lastSeenAgo since` as
"Last seen: ... ago" with the duration rounded to seconds
(src/plug.go:1027-1041); the textual rendering of the ago case is abstracted
to its `since` payload. -/
inductive ConnNote where
  | neverSeen
  | lastSeenAgo (sinceNs : Int)
deriving DecidableEq, Repr

/-- The derived connection classification `connectionStatus`
(src/plug.go:1027-1041): zero time is "disconnected"/Never seen, then the
age thresholds 30 s and 60 s pick "connected", "stale" or "disconnected". -/
def connectionStatus (lastSeen now : Nat) : String × ConnNote :=
  if lastSeen = 0 then ("disconnected", .neverSeen)
  else
    let since : Int := (now : Int) - (lastSeen : Int)
    if since < 30 * nsPerSecond then ("connected", .lastSeenAgo since)
    else if since < 60 * nsPerSecond then ("stale", .lastSeenAgo since)
    else ("disconnected", .lastSeenAgo since)

/-- Static plug configuration, from `plugs.Plug` (src/unnamed/part_013:70-84).
`HomeKit` and `Web` are `*bool` pointers modelled as `Option Bool` (`none` is
the nil pointer, meaning enabled by default). -/
structure Plug where
  ID : String := ""
  Name : String := ""
  Address : String := ""
  Model : String := ""
  PowerMonitoring : Bool := false
  EnergyTracking : Bool := false
  HomeKit : Option Bool := none
  Web : Option Bool := none
deriving DecidableEq, Repr

/-- Lookup in the `plug_id -> state` map, modelled as an association list. -/
def lookupState (states : List (String × State)) (id : String) : Option State :=
  (states.find? (fun p => p.1 == id)).map (·.2)

/-- Update of an existing key in the `plug_id -> state` map. -/
def updateState (states : List (String × State)) (id : String) (v : State) :
    List (String × State) :=
  states.map (fun p => if p.1 == id then (p.1, v) else p)

/-- Lookup in the `plug_id -> plug` registry. -/
def lookupPlug (plugs : List (String × Plug)) (id : String) : Option Plug :=
  (plugs.find? (fun p => p.1 == id)).map (·.2)

/-- Authoritative state snapshot event, from `events.StateUpdateEvent` as
populated by `Manager.publishStateUpdate` (src/plug.go:996-1025). -/
structure StateUpdateEvent where
  Timestamp : Nat := 0
  Source : String := ""
  PlugID : String := ""
  Name : String := ""
  On : Bool := false
  Power : ℚ := 0
  Voltage : ℚ := 0
  Current : ℚ := 0
  Energy : ℚ := 0
  MQTTConnected : Bool := false
  LastSeen : Nat := 0
  LastUpdated : Nat := 0
  ConnectionState : String := ""
  ConnectionNote : ConnNote := .neverSeen
deriving DecidableEq, Repr

/-- `Manager.publishStateUpdate` (src/plug.go:996-1025): build the
authoritative `StateUpdateEvent` for a plug, taking the display name from the
registry (falling back to the plug id) and deriving the connection
classification from the state's `LastSeen` at the current time. -/
def mkStateUpdate (plugs : List (String × Plug)) (source plugID : String)
    (state : State) (now : Nat) : StateUpdateEvent :=
  let name := ((lookupPlug plugs plugID).map (·.Name)).getD plugID
  let conn := connectionStatus state.LastSeen now
  { Timestamp := now
    Source := source
    PlugID := plugID
    Name := name
    On := state.On
    Power := state.Power
    Voltage := state.Voltage
    Current := state.Current
    Energy := state.Energy
    MQTTConnected := state.MQTTConnected
    LastSeen := state.LastSeen
    LastUpdated := state.LastUpdated
    ConnectionState := conn.1
    ConnectionNote := conn.2 }

/-- An event published by the Manager on the bus: `plugs.ErrorEvent` (the
error payload is dropped, only the plug id matters to the claims),
`plugs.StateChangedEvent`, or `events.StateUpdateEvent`. -/
inductive PublishedEvent where
  | errorEvent (plugID : String)
  | stateChanged (e : StateChangedEvent)
  | stateUpdate (e : StateUpdateEvent)
deriving DecidableEq, Repr

/-- JSON values, for modelling the device HTTP/MQTT payloads that the Go code
decodes with `encoding/json`.  Object member lists keep their textual order,
so duplicate keys can be modelled (Go lets the later member win). -/
inductive Json where
  | null
  | bool (b : Bool)
  | num (q : ℚ)
  | str (s : String)
  | arr (elems : List Json)
  | obj (fields : List (String × Json))

/-- Lowercase an ASCII letter, the fragment of Go's case folding that JSON
struct-field matching needs for the keys at hand. -/
def asciiLowerChar (c : Char) : Char :=
  if 'A' ≤ c ∧ c ≤ 'Z' then Char.ofNat (c.toNat + 32) else c

/-- Case-insensitive key comparison as Go JSON struct decoding performs it
(ASCII folding suffices for the keys the device protocol uses). -/
def eqFoldASCII (a b : String) : Bool :=
  a.toList.map asciiLowerChar == b.toList.map asciiLowerChar

/-- Go `json.Unmarshal` into a one-field struct: every object member whose key
matches the field's JSON name (case-insensitively, as Go struct decoding does)
writes the field, and the last writer wins. -/
def lookupGoField (fields : List (String × Json)) (name : String) : Option Json :=
  (fields.reverse.find? (fun p => eqFoldASCII p.1 name)).map (·.2)

/-- Go `json.Unmarshal` into `map[string]interface{}` member access: map keys
match exactly and the later duplicate wins. -/
def lookupMapKey (fields : List (String × Json)) (key : String) : Option Json :=
  (fields.reverse.find? (fun p => p.1 == key)).map (·.2)

/-- Go `json.Unmarshal` of a value into `struct { Power string }` with the
given JSON name for the field: succeeds on an object or null, leaving the
zero value `""` when the member is absent or null, and fails (returns `none`)
when the value or the member has the wrong JSON type. -/
def unmarshalPowerStruct (j : Json) (fieldName : String) : Option String :=
  match j with
  | .null => some ""
  | .obj fs =>
    match lookupGoField fs fieldName with
    | none => some ""
    | some .null => some ""
    | some (.str s) => some s
    | some _ => none
  | _ => none

/-- Go `json.Unmarshal` of the `Status 0` response body into
`struct { Status struct { Power string } }` (src/plug.go:768-772): note that
an object without a `Status` member unmarshals successfully with `Power`
left at its zero value `""`. -/
def unmarshalStatusResp (j : Json) : Option String :=
  match j with
  | .null => some ""
  | .obj fs =>
    match lookupGoField fs "Status" with
    | none => some ""
    | some v => unmarshalPowerStruct v "Power"
  | _ => none

/-- Go `json.Unmarshal` of the response body into `struct { Power string }`
tagged `json:"POWER"` (src/plug.go:783-785), the flat fallback shape. -/
def unmarshalAltResp (j : Json) : Option String :=
  unmarshalPowerStruct j "POWER"

/-- `Manager.SetPower` (src/plug.go:709-753).  The device HTTP call is the
function `exec` from the command string to an optional JSON response body,
`none` being a failed call.  Returns the new state map, the published events
in order, and whether the call returned without error.  The
not-seen-recently branch only logs a warning and is omitted. -/
def setPower (plugs : List (String × Plug)) (states : List (String × State))
    (exec : String → Option Json) (plugID : String) (onCmd : Bool) (now : Nat) :
    List (String × State) × List PublishedEvent × Bool :=
  if (lookupPlug plugs plugID).isNone then (states, [], false)
  else
    let command := if onCmd then "Power ON" else "Power OFF"
    match exec command with
    | none => (states, [.errorEvent plugID], false)
    | some _ =>
      let stored := (lookupState states plugID).getD {}
      let ns := { stored with On := onCmd, LastUpdated := now }
      (updateState states plugID ns,
       [.stateChanged { PlugID := plugID, EventState := ns },
        .stateUpdate (mkStateUpdate plugs "command" plugID ns now)],
       true)

/-- `Manager.GetStatus` (src/plug.go:756-796): send `Status 0`, first try the
nested `{"Status":{"Power":...}}` struct, and only if that unmarshal errors
try the flat `{"POWER":...}` struct; the nested branch publishes a
`source:"status"` update, the flat branch does not.  Returns the new state
map, the published events and the returned state copy (`none` is an error
return). -/
def getStatus (plugs : List (String × Plug)) (states : List (String × State))
    (exec : String → Option Json) (plugID : String) (now : Nat) :
    List (String × State) × List PublishedEvent × Option State :=
  if (lookupPlug plugs plugID).isNone then (states, [], none)
  else
    match exec "Status 0" with
    | none => (states, [], none)
    | some body =>
      let stored := (lookupState states plugID).getD {}
      match unmarshalStatusResp body with
      | some power =>
        let ns := { stored with On := power == "ON", LastUpdated := now }
        (updateState states plugID ns,
         [.stateUpdate (mkStateUpdate plugs "status" plugID ns now)],
         some ns)
      | none =>
        match unmarshalAltResp body with
        | some power =>
          let ns := { stored with On := power == "ON", LastUpdated := now }
          (updateState states plugID ns, [], some ns)
        | none => (states, [], none)

/-- One iteration of the Reconciler's delta loop `Manager.ProcessStateEvents`
(src/plug.go:816-860) on an incoming `StateChangedEvent`: events for unknown
plugs are skipped; for known plugs the delta is merged into the stored state
and an authoritative `source:"eventbus"` update is published. -/
def processStateEvent (plugs : List (String × Plug))
    (states : List (String × State)) (e : StateChangedEvent) (now : Nat) :
    List (String × State) × List StateUpdateEvent :=
  match lookupState states e.PlugID with
  | none => (states, [])
  | some stored =>
    let merged := mergeStateEvent stored e
    (updateState states e.PlugID merged,
     [mkStateUpdate plugs "eventbus" e.PlugID merged now])

/-- Go `strings.Split` with a one-character separator, written structurally
over the character list so that concrete inputs evaluate inside the kernel. -/
def splitChar (sep : Char) : List Char → List (List Char)
  | [] => [[]]
  | c :: rest =>
    let r := splitChar sep rest
    if c = sep then [] :: r
    else
      match r with
      | [] => [[c]]
      | seg :: segs => (c :: seg) :: segs

/-- Topic parsing of `MQTTHook.OnPublish` (src/mqtt.go:66-84): split on "/",
require at least 3 segments, take the third segment as the plug id when the
first is "tele" or "stat", and bail out when the resulting id is empty. -/
def topicPlugID (topic : String) : Option String :=
  let parts := splitChar '/' topic.toList
  if parts.length < 3 then none
  else
    let head := parts.getD 0 []
    let plugID := if head = "tele".toList ∨ head = "stat".toList then parts.getD 2 [] else []
    if plugID = [] then none else some (String.mk plugID)

/-- Go `json.Unmarshal` of the payload into `map[string]interface{}`:
succeeds on an object (or null, giving the nil map on which every lookup
misses) and fails on any other JSON value. -/
def unmarshalMap (j : Json) : Option (List (String × Json)) :=
  match j with
  | .null => some []
  | .obj fs => some fs
  | _ => none

/-- Power-state extraction of `MQTTHook.OnPublish` (src/mqtt.go:92-100):
a string under the top-level key `POWER`, else a string under `POWER` inside
the object under `StatusSTS`, else the empty string (treated as absent). -/
def extractPowerState (msg : List (String × Json)) : String :=
  match lookupMapKey msg "POWER" with
  | some (.str s) => s
  | _ =>
    match lookupMapKey msg "StatusSTS" with
    | some (.obj fs) =>
      match lookupMapKey fs "POWER" with
      | some (.str s) => s
      | _ => ""
    | _ => ""

/-- `MQTTHook.OnPublish` (src/mqtt.go:57-128).  The payload bytes are modelled
as `Option Json`, `none` being bytes that are not valid JSON.  When the topic
matches, the payload decodes to a map carrying a power state, and the plug is
known, the stored state's `On` and `LastUpdated` are mutated and a copy is
sent as a `StateChangedEvent`; in every other case nothing happens.  Returns
the new state map and the events sent. -/
def onPublish (states : List (String × State)) (topic : String)
    (payload : Option Json) (now : Nat) :
    List (String × State) × List StateChangedEvent :=
  match topicPlugID topic with
  | none => (states, [])
  | some plugID =>
    match payload with
    | none => (states, [])
    | some j =>
      match unmarshalMap j with
      | none => (states, [])
      | some msg =>
        let power := extractPowerState msg
        if power == "" then (states, [])
        else
          match lookupState states plugID with
          | none => (states, [])
          | some stored =>
            let ns := { stored with On := power == "ON", LastUpdated := now }
            (updateState states plugID ns, [{ PlugID := plugID, EventState := ns }])

/-- Command request sent on the Reconciler's command channel, from
`plugs.CommandEvent` (src/unnamed/part_013:107-110). -/
structure CommandEvent where
  PlugID : String
  On : Bool
deriving DecidableEq, Repr

/-- A `/toggle/<plug_id>` request as `WebServer.HandleToggle` observes it:
the HTTP method, the path suffix, the decoded `action` form value (`none`
when the field is absent, which Go's `FormValue` reports as `""`), and the
`HX-Request: true` header flag. -/
structure ToggleRequest where
  Method : String := "POST"
  PlugID : String := ""
  Action : Option String := none
  HXRequest : Bool := false
deriving DecidableEq, Repr

/-- Response of `WebServer.HandleToggle` (src/web.go:751-804). -/
inductive ToggleResponse where
  | methodNotAllowed
  | plugNotFound
  | plugNotOnWeb
  | htmlFragment
  | redirectToIndex
deriving DecidableEq, Repr

/-- `WebServer.HandleToggle` (src/web.go:751-804): reject non-POST methods,
unknown plugs and web-disabled plugs; otherwise interpret
`action == "on"` as on and anything else as off, send the command on the
command channel, and answer with an HTMX fragment or a redirect.  Returns the
response and the commands sent. -/
def handleToggle (plugs : List (String × Plug)) (req : ToggleRequest) :
    ToggleResponse × List CommandEvent :=
  if req.Method ≠ "POST" then (.methodNotAllowed, [])
  else
    match lookupPlug plugs req.PlugID with
    | none => (.plugNotFound, [])
    | some plug =>
      if plug.Web = some false then (.plugNotOnWeb, [])
      else
        let action := req.Action.getD ""
        let onCmd := action == "on"
        ((if req.HXRequest then .htmlFragment else .redirectToIndex),
         [{ PlugID := req.PlugID, On := onCmd }])

/-- Capacity of a per-connection SSE send queue:
`make(chan events.StateUpdateEvent, 10)` in `WebServer.HandleSSE`
(src/web.go:889). -/
def sseClientQueueCapacity : Nat := 10

/-- A non-blocking channel send (`select` with a `default` arm): enqueue when
the queue has room, silently drop the event otherwise. -/
def trySend (queue : List StateUpdateEvent) (ev : StateUpdateEvent) :
    List StateUpdateEvent :=
  if queue.length < sseClientQueueCapacity then queue ++ [ev] else queue

/-- `WebServer.broadcastSSE` (src/web.go:491-501): offer the event to every
connected client's queue with a non-blocking send. -/
def broadcastSSE (clients : List (List StateUpdateEvent))
    (ev : StateUpdateEvent) : List (List StateUpdateEvent) :=
  clients.map (fun q => trySend q ev)

/-- The snapshot flush on connect in `WebServer.HandleSSE`
(src/web.go:901-907): a fresh empty queue receives every snapshot event via
a non-blocking send before any new update is streamed. -/
def sseConnectQueue (snapshot : List StateUpdateEvent) : List StateUpdateEvent :=
  snapshot.foldl trySend []

/-- Environment-driven configuration, from `config.Config`
(src/config/config.go:19-54) after environment parsing: string and int
fields carry their `default=` tag values, and the three `...EnvSet` flags
model `envVarSet` (whether the corresponding `_PORT` variable was present in
the environment, src/config/config.go:212-218). -/
structure Config where
  HAPPin : String := "00102003"
  HAPStoragePath : String := "./data/hap"
  HAPAddr : String := ""
  HAPBindAddress : String := "0.0.0.0"
  HAPPort : Int := 8080
  WebAddr : String := ""
  WebBindAddress : String := "0.0.0.0"
  WebPort : Int := 8081
  MQTTAddr : String := ""
  MQTTBindAddress : String := "0.0.0.0"
  MQTTPort : Int := 1883
  TailscaleStateDir : String := "./data/tailscale"
  LogLevel : String := "info"
  LogFormat : String := "json"
  PlugsConfigPath : String := "./plugs.hujson"
  HAPPortEnvSet : Bool := false
  WebPortEnvSet : Bool := false
  MQTTPortEnvSet : Bool := false
deriving DecidableEq, Repr

/-- Decimal digit-string evaluation (the behavior of Go's decimal parses and
of `String.toNat?`): `none` unless the list is non-empty and all digits. -/
def digitsToNatAux : List Char → Nat → Option Nat
  | [], acc => some acc
  | c :: rest, acc =>
    if c.isDigit then digitsToNatAux rest (acc * 10 + (c.toNat - 48)) else none

/-- Decimal digit-string evaluation entry point. -/
def digitsToNat? (cs : List Char) : Option Nat :=
  match cs with
  | [] => none
  | _ => digitsToNatAux cs 0

/-- One octet of a dotted-quad IPv4 address as `netip.ParseAddr` accepts it:
one to three digits, no leading zero, value at most 255. -/
def parseOctet (cs : List Char) : Bool :=
  match digitsToNat? cs with
  | some n =>
    if n ≤ 255 ∧ cs.length ≤ 3 ∧ (cs = ['0'] ∨ cs.headD ' ' ≠ '0') then true else false
  | none => false

/-- Dotted-quad IPv4 parsing, the fragment of `netip.ParseAddr` the
configuration defaults exercise (IPv6 forms are not modelled; no claim
touches them). -/
def parseIPv4 (cs : List Char) : Bool :=
  match splitChar '.' cs with
  | [a, b, c, d] => parseOctet a && parseOctet b && parseOctet c && parseOctet d
  | _ => false

/-- Split a character list at the first occurrence of a separator, returning
the segments before and after it. -/
def breakAtFirst (sep : Char) : List Char → Option (List Char × List Char)
  | [] => none
  | c :: rest =>
    if c = sep then some ([], rest)
    else (breakAtFirst sep rest).map (fun p => (c :: p.1, p.2))

/-- `netip.ParseAddrPort` on `host:port` strings with an IPv4 host: split at
the last colon, the host must be a dotted quad and the port a decimal number
at most 65535. -/
def parseAddrPort (s : String) : Bool :=
  match breakAtFirst ':' s.toList.reverse with
  | none => false
  | some (portRev, hostRev) =>
    parseIPv4 hostRev.reverse &&
      (match digitsToNat? portRev.reverse with
       | some n => if n ≤ 65535 then true else false
       | none => false)

/-- `validatePortRange` (src/config/config.go:273-278): ports must lie in
`[1, 65535]`. -/
def validatePortRange (port : Int) : Bool :=
  1 ≤ port && port ≤ 65535

/-- One listener of `parseListenerAddrs` (src/config/config.go:92-150):
default the bind address, default the port when it is zero and its variable
was not set, check the port range, then parse the effective address.  When
the explicit `..._ADDR` is empty the code formats `bindAddress:port` and
reparses it; since the port was just range-checked its decimal rendering
always parses back, so that branch reduces to parsing the bind address as an
IPv4 host (a bind address containing a colon fails the dotted-quad parse
either way). -/
def listenerOK (addr bindAddress : String) (port : Int) (envSet : Bool)
    (defaultBind : String) (defaultPort : Int) : Bool :=
  let bindAddress := if bindAddress == "" then defaultBind else bindAddress
  let port := if port == 0 && !envSet then defaultPort else port
  if !validatePortRange port then false
  else if addr == "" then parseIPv4 bindAddress.toList
  else parseAddrPort addr

/-- `validateLogLevel` (src/config/config.go:280-287). -/
def validateLogLevel (level : String) : Bool :=
  level == "debug" || level == "info" || level == "warn" || level == "error"

/-- `validateLogFormat` (src/config/config.go:289-296). -/
def validateLogFormat (format : String) : Bool :=
  format == "json" || format == "console"

/-- `Config.Validate` (src/config/config.go:70-90), returning `true` when
validation succeeds: the HAP PIN check is the first test and examines only
the string's length, then the three listeners, the plugs path, the log
settings and the Tailscale state directory are checked in source order. -/
def configValidate (c : Config) : Bool :=
  if c.HAPPin.length ≠ 8 then false
  else if !listenerOK c.HAPAddr c.HAPBindAddress c.HAPPort c.HAPPortEnvSet "0.0.0.0" 8080 then false
  else if !listenerOK c.WebAddr c.WebBindAddress c.WebPort c.WebPortEnvSet "0.0.0.0" 8081 then false
  else if !listenerOK c.MQTTAddr c.MQTTBindAddress c.MQTTPort c.MQTTPortEnvSet "0.0.0.0" 1883 then false
  else if c.PlugsConfigPath == "" then false
  else if !validateLogLevel c.LogLevel then false
  else if !validateLogFormat c.LogFormat then false
  else if c.TailscaleStateDir == "" then false
  else true

/-- An event that carries only liveness information: its `updated_fields`
lists nothing beyond `LastSeen`/`MQTTConnected`, or — in the legacy encoding
without `updated_fields` — its delta has a zero `LastUpdated`, the marker the
producers use for a delta that carries no power-state or metric update. -/
def carriesOnlyLastSeen (e : StateChangedEvent) : Prop :=
  match e.UpdatedFields with
  | some fs => ∀ f ∈ fs, f = StateField.LastSeen ∨ f = StateField.MQTTConnected
  | none => e.EventState.LastUpdated = 0

/-- An event that carries only a power state (plus liveness): its
`updated_fields` is present and lists no metric field.  In the legacy
encoding every delta carries a full state snapshot — the metric values travel
with it — so a power-only event is necessarily expressed through
`updated_fields`. -/
def carriesOnlyPower (e : StateChangedEvent) : Prop :=
  ∃ fs, e.UpdatedFields = some fs ∧
    ∀ f ∈ fs, f = StateField.On ∨ f = StateField.LastUpdated ∨
      f = StateField.LastSeen ∨ f = StateField.MQTTConnected

/-- An event that carries only metrics (plus liveness): its `updated_fields`
is present and does not list `On`, or — legacy — its delta has a zero
`LastUpdated` (the ingest contract sets `last_updated` only when a power
state is present, so a metrics-only legacy delta leaves it zero). -/
def carriesOnlyMetrics (e : StateChangedEvent) : Prop :=
  match e.UpdatedFields with
  | some fs => ∀ f ∈ fs, f ≠ StateField.On
  | none => e.EventState.LastUpdated = 0

/-- The merge rule exactly as the spec sentence for the delta loop states it,
written field-wise (the refinement target): with `updated_fields` present
copy exactly the listed fields; otherwise copy `LastSeen`/`MQTTConnected`
iff the delta's `last_seen` is non-zero and `On`, the metrics and
`LastUpdated` iff the delta's `last_updated` is non-zero. -/
def specMergeRule (stored : State) (e : StateChangedEvent) : State :=
  match e.UpdatedFields with
  | some fs => mergeWithFields stored e.EventState fs
  | none =>
    { ID := stored.ID
      Name := stored.Name
      On := if e.EventState.LastUpdated ≠ 0 then e.EventState.On else stored.On
      Power := if e.EventState.LastUpdated ≠ 0 then e.EventState.Power else stored.Power
      Voltage := if e.EventState.LastUpdated ≠ 0 then e.EventState.Voltage else stored.Voltage
      Current := if e.EventState.LastUpdated ≠ 0 then e.EventState.Current else stored.Current
      Energy := if e.EventState.LastUpdated ≠ 0 then e.EventState.Energy else stored.Energy
      LastUpdated := if e.EventState.LastUpdated ≠ 0 then e.EventState.LastUpdated else stored.LastUpdated
      MQTTConnected := if e.EventState.LastSeen ≠ 0 then e.EventState.MQTTConnected else stored.MQTTConnected
      LastSeen := if e.EventState.LastSeen ≠ 0 then e.EventState.LastSeen else stored.LastSeen }

/-! ## General lemmas about the embedding -/

/-- Resolving a lookup against a cons cell of the association-list state map. -/
theorem lookupState_cons (a : String × State) (l : List (String × State)) (id : String) :
    lookupState (a :: l) id = if a.1 == id then some a.2 else lookupState l id := by
  simp only [lookupState, List.find?]
  cases ha : a.1 == id <;> simp [ha]

/-- Updating a key and then looking it up returns the new value whenever the
key was present. -/
theorem lookupState_updateState (states : List (String × State)) (id : String) (v : State) :
    lookupState (updateState states id v) id = (lookupState states id).map (fun _ => v) := by
  induction states with
  | nil => rfl
  | cons hd tl ih =>
    show lookupState ((if hd.1 == id then (hd.1, v) else hd) :: updateState tl id v) id = _
    by_cases h : hd.1 == id
    · rw [if_pos h, lookupState_cons, lookupState_cons]
      simp [h]
    · rw [if_neg h, lookupState_cons, lookupState_cons]
      simp only [h, if_neg, Bool.false_eq_true, if_false]
      exact ih

/-- Characterization of the field-list merge: each state field takes the
delta's value exactly when it is listed, and `ID`/`Name` are never copied. -/
theorem mergeWithFields_eq (delta : State) :
    ∀ (fs : List StateField) (stored : State),
      mergeWithFields stored delta fs =
        { ID := stored.ID
          Name := stored.Name
          On := if StateField.On ∈ fs then delta.On else stored.On
          Power := if StateField.Power ∈ fs then delta.Power else stored.Power
          Voltage := if StateField.Voltage ∈ fs then delta.Voltage else stored.Voltage
          Current := if StateField.Current ∈ fs then delta.Current else stored.Current
          Energy := if StateField.Energy ∈ fs then delta.Energy else stored.Energy
          LastUpdated := if StateField.LastUpdated ∈ fs then delta.LastUpdated else stored.LastUpdated
          MQTTConnected := if StateField.MQTTConnected ∈ fs then delta.MQTTConnected else stored.MQTTConnected
          LastSeen := if StateField.LastSeen ∈ fs then delta.LastSeen else stored.LastSeen } := by
  intro fs
  induction fs with
  | nil => intro stored; simp [mergeWithFields]
  | cons f rest ih =>
    intro stored
    have h1 : mergeWithFields stored delta (f :: rest) =
        mergeWithFields (copyField stored delta f) delta rest := rfl
    rw [h1, ih]
    cases f <;> simp [copyField, List.mem_cons]

/-- The implemented merge coincides with the field-wise rule of the spec. -/
theorem mergeStateEvent_eq_spec (stored : State) (e : StateChangedEvent) :
    mergeStateEvent stored e = specMergeRule stored e := by
  cases he : e.UpdatedFields with
  | some fs => simp [mergeStateEvent, specMergeRule, he]
  | none =>
    simp only [mergeStateEvent, specMergeRule, he, mergeLegacy]
    split_ifs <;> simp_all

/-! ## Concrete fixtures used by witness theorems -/

/-- A sample stored plug state with non-zero metric fields. -/
def sampleStored : State :=
  { ID := "lamp", Name := "Lamp", On := true, Power := 2, Voltage := 3,
    Current := 4, Energy := 5, LastUpdated := 1, MQTTConnected := false, LastSeen := 1 }

/-- A sample plug registry with the single plug "lamp". -/
def samplePlugs : List (String × Plug) :=
  [("lamp", { ID := "lamp", Name := "Lamp", Address := "192.168.1.10" })]

/-- A sample state map with the single plug "lamp". -/
def sampleStates : List (String × State) := [("lamp", sampleStored)]

/-- A legacy liveness-only delta: non-zero `LastSeen`, zero `LastUpdated`. -/
def livenessOnlyEvent : StateChangedEvent :=
  { PlugID := "lamp", EventState := { LastSeen := 9, MQTTConnected := true } }

/-- A power-only delta expressed through `updated_fields`. -/
def powerOnlyEvent : StateChangedEvent :=
  { PlugID := "lamp"
    EventState := { On := false, LastUpdated := 7, LastSeen := 9, MQTTConnected := true }
    UpdatedFields := some [.On, .LastUpdated, .LastSeen, .MQTTConnected] }

/-- A metrics-only delta expressed through `updated_fields`. -/
def metricsOnlyEvent : StateChangedEvent :=
  { PlugID := "lamp"
    EventState := { Power := 15, LastSeen := 9, MQTTConnected := true }
    UpdatedFields := some [.Power, .Voltage, .Current, .Energy, .LastSeen, .MQTTConnected] }

/-! ## Claim theorems -/

/-- C4: the derived classification is "disconnected" with note "Never seen"
at the zero time; "connected" strictly below 30 s of age; "stale" from 30 s
inclusive to 60 s exclusive (so exactly 30 s old is stale); "disconnected"
from 60 s inclusive (so exactly 60 s old is disconnected). -/
theorem connectionStatus_boundaries (lastSeen now : Nat) :
    (lastSeen = 0 → connectionStatus lastSeen now = ("disconnected", .neverSeen)) ∧
    (lastSeen ≠ 0 → (now : Int) - lastSeen < 30 * nsPerSecond →
      (connectionStatus lastSeen now).1 = "connected") ∧
    (lastSeen ≠ 0 → 30 * nsPerSecond ≤ (now : Int) - lastSeen →
      (now : Int) - lastSeen < 60 * nsPerSecond →
      (connectionStatus lastSeen now).1 = "stale") ∧
    (lastSeen ≠ 0 → 60 * nsPerSecond ≤ (now : Int) - lastSeen →
      (connectionStatus lastSeen now).1 = "disconnected") := by
  refine ⟨fun h => by simp [connectionStatus, h],
          fun h h1 => ?_, fun h h1 h2 => ?_, fun h h1 => ?_⟩ <;>
    simp only [nsPerSecond] at h1 ⊢ <;>
    try simp only [nsPerSecond] at h2
  all_goals
    simp only [connectionStatus, nsPerSecond, if_neg h]
  all_goals split_ifs <;> first | rfl | omega

/-- Witness for C4 at the zero time, a fresh plug, and ages of exactly 30 s
and exactly 60 s. -/
theorem connectionStatus_boundaries_witness :
    connectionStatus 0 7 = ("disconnected", .neverSeen) ∧
    (connectionStatus 1 15000000000).1 = "connected" ∧
    (connectionStatus 1 30000000001).1 = "stale" ∧
    (connectionStatus 1 60000000001).1 = "disconnected" :=
  ⟨(connectionStatus_boundaries 0 7).1 rfl,
   (connectionStatus_boundaries 1 15000000000).2.1 (by decide) (by decide),
   (connectionStatus_boundaries 1 30000000001).2.2.1 (by decide) (by decide) (by decide),
   (connectionStatus_boundaries 1 60000000001).2.2.2 (by decide) (by decide)⟩

/-- C7: applying the delta merge of the Reconciler twice with the same
`StateChangedEvent` yields the same state as applying it once, on both the
`updated_fields` branch and the legacy zero-time branch. -/
theorem mergeStateEvent_idempotent (stored : State) (e : StateChangedEvent) :
    mergeStateEvent (mergeStateEvent stored e) e = mergeStateEvent stored e := by
  cases he : e.UpdatedFields with
  | none =>
    simp only [mergeStateEvent, he, mergeLegacy]
    split_ifs <;> rfl
  | some fs =>
    simp only [mergeStateEvent, he]
    rw [mergeWithFields_eq, mergeWithFields_eq]
    simp only [State.mk.injEq]
    simp only [eq_self_iff_true, true_and]
    refine ⟨?_, ?_, ?_, ?_, ?_, ?_, ?_, ?_⟩ <;> (split <;> simp_all)

/-- C1: a delta carrying only `last_seen` (zero `last_updated`) leaves `On`
and the four metrics unchanged; a delta carrying only a power state never
changes — in particular never zeroes — the metrics; a delta carrying only
metrics never changes `On`. -/
theorem mergeStateEvent_field_preservation (stored : State) (e : StateChangedEvent) :
    (carriesOnlyLastSeen e →
      (mergeStateEvent stored e).On = stored.On ∧
      (mergeStateEvent stored e).Power = stored.Power ∧
      (mergeStateEvent stored e).Voltage = stored.Voltage ∧
      (mergeStateEvent stored e).Current = stored.Current ∧
      (mergeStateEvent stored e).Energy = stored.Energy) ∧
    (carriesOnlyPower e →
      (mergeStateEvent stored e).Power = stored.Power ∧
      (mergeStateEvent stored e).Voltage = stored.Voltage ∧
      (mergeStateEvent stored e).Current = stored.Current ∧
      (mergeStateEvent stored e).Energy = stored.Energy) ∧
    (carriesOnlyMetrics e → (mergeStateEvent stored e).On = stored.On) := by
  cases he : e.UpdatedFields with
  | none =>
    refine ⟨fun h => ?_, fun h => ?_, fun h => ?_⟩
    · simp only [carriesOnlyLastSeen, he] at h
      simp [mergeStateEvent, he, mergeLegacy, h]
      split <;> simp
    · rcases h with ⟨fs, hfs, _⟩
      rw [he] at hfs; cases hfs
    · simp only [carriesOnlyMetrics, he] at h
      simp [mergeStateEvent, he, mergeLegacy, h]
      split <;> simp
  | some fs =>
    have hchar := mergeWithFields_eq e.EventState fs stored
    refine ⟨fun h => ?_, fun h => ?_, fun h => ?_⟩
    · simp only [carriesOnlyLastSeen, he] at h
      have hOn : StateField.On ∉ fs := fun hm => by rcases h _ hm with h1 | h1 <;> cases h1
      have hP : StateField.Power ∉ fs := fun hm => by rcases h _ hm with h1 | h1 <;> cases h1
      have hV : StateField.Voltage ∉ fs := fun hm => by rcases h _ hm with h1 | h1 <;> cases h1
      have hC : StateField.Current ∉ fs := fun hm => by rcases h _ hm with h1 | h1 <;> cases h1
      have hE : StateField.Energy ∉ fs := fun hm => by rcases h _ hm with h1 | h1 <;> cases h1
      simp [mergeStateEvent, he, hchar, hOn, hP, hV, hC, hE]
    · rcases h with ⟨fs2, hfs2, h⟩
      rw [he] at hfs2
      injection hfs2 with hfs2
      subst hfs2
      have hP : StateField.Power ∉ fs := fun hm => by
        rcases h _ hm with h1 | h1 | h1 | h1 <;> cases h1
      have hV : StateField.Voltage ∉ fs := fun hm => by
        rcases h _ hm with h1 | h1 | h1 | h1 <;> cases h1
      have hC : StateField.Current ∉ fs := fun hm => by
        rcases h _ hm with h1 | h1 | h1 | h1 <;> cases h1
      have hE : StateField.Energy ∉ fs := fun hm => by
        rcases h _ hm with h1 | h1 | h1 | h1 <;> cases h1
      simp [mergeStateEvent, he, hchar, hP, hV, hC, hE]
    · simp only [carriesOnlyMetrics, he] at h
      have hOn : StateField.On ∉ fs := fun hm => h _ hm rfl
      simp [mergeStateEvent, he, hchar, hOn]

/-- Witness for C1: a liveness-only delta, a power-only delta and a
metrics-only delta applied to a stored state with non-zero metrics. -/
theorem mergeStateEvent_field_preservation_witness :
    (carriesOnlyLastSeen livenessOnlyEvent ∧
      (mergeStateEvent sampleStored livenessOnlyEvent).On = sampleStored.On ∧
      (mergeStateEvent sampleStored livenessOnlyEvent).Power = sampleStored.Power) ∧
    (carriesOnlyPower powerOnlyEvent ∧
      (mergeStateEvent sampleStored powerOnlyEvent).Power = sampleStored.Power ∧
      (mergeStateEvent sampleStored powerOnlyEvent).Energy = sampleStored.Energy) ∧
    (carriesOnlyMetrics metricsOnlyEvent ∧
      (mergeStateEvent sampleStored metricsOnlyEvent).On = sampleStored.On) := by
  have h1 : carriesOnlyLastSeen livenessOnlyEvent := rfl
  have h2 : carriesOnlyPower powerOnlyEvent :=
    ⟨[.On, .LastUpdated, .LastSeen, .MQTTConnected], rfl, by decide⟩
  have h3 : carriesOnlyMetrics metricsOnlyEvent :=
    show ∀ f ∈ ([.Power, .Voltage, .Current, .Energy, .LastSeen, .MQTTConnected] :
      List StateField), f ≠ StateField.On by decide
  have t1 := (mergeStateEvent_field_preservation sampleStored livenessOnlyEvent).1 h1
  have t2 := (mergeStateEvent_field_preservation sampleStored powerOnlyEvent).2.1 h2
  have t3 := (mergeStateEvent_field_preservation sampleStored metricsOnlyEvent).2.2 h3
  exact ⟨⟨h1, t1.1, t1.2.1⟩, ⟨h2, t2.1, t2.2.2.2⟩, ⟨h3, t3⟩⟩

/-- C2: for a known plug, one delta-loop iteration stores exactly the merge
the spec describes — with `updated_fields` present copy exactly the listed
fields, otherwise copy liveness iff the delta's `last_seen` is non-zero and
power/metrics iff its `last_updated` is non-zero — and publishes the
corresponding `source:"eventbus"` update. -/
theorem processStateEvent_merge_rule (plugs : List (String × Plug))
    (states : List (String × State)) (e : StateChangedEvent) (now : Nat)
    (stored : State) (h : lookupState states e.PlugID = some stored) :
    lookupState (processStateEvent plugs states e now).1 e.PlugID =
      some (specMergeRule stored e) ∧
    (processStateEvent plugs states e now).2 =
      [mkStateUpdate plugs "eventbus" e.PlugID (specMergeRule stored e) now] := by
  simp only [processStateEvent, h]
  constructor
  · rw [lookupState_updateState, h]
    simp [mergeStateEvent_eq_spec]
  · rw [mergeStateEvent_eq_spec]

/-- Witness for C2 at a concrete state map and legacy delta. -/
theorem processStateEvent_merge_rule_witness :
    lookupState sampleStates livenessOnlyEvent.PlugID = some sampleStored ∧
    lookupState
        (processStateEvent samplePlugs sampleStates livenessOnlyEvent 11).1
        livenessOnlyEvent.PlugID =
      some (specMergeRule sampleStored livenessOnlyEvent) :=
  ⟨by decide,
   (processStateEvent_merge_rule samplePlugs sampleStates livenessOnlyEvent 11
     sampleStored (by decide)).1⟩

/-- C3: for a `SetPower` call on a known plug, a failed device command
publishes an `ErrorEvent` for that plug, leaves the stored state map
completely unchanged and returns an error; a successful command sets `On` to
the commanded value and `LastUpdated` to now, and publishes an authoritative
`StateUpdateEvent` with source "command". -/
theorem setPower_atomicity (plugs : List (String × Plug))
    (states : List (String × State)) (exec : String → Option Json)
    (plugID : String) (onCmd : Bool) (now : Nat)
    (p : Plug) (hp : lookupPlug plugs plugID = some p)
    (stored : State) (hs : lookupState states plugID = some stored) :
    (exec (if onCmd then "Power ON" else "Power OFF") = none →
      setPower plugs states exec plugID onCmd now =
        (states, [.errorEvent plugID], false)) ∧
    (∀ body, exec (if onCmd then "Power ON" else "Power OFF") = some body →
      ∀ ns, ns = { stored with On := onCmd, LastUpdated := now } →
      lookupState (setPower plugs states exec plugID onCmd now).1 plugID = some ns ∧
      (setPower plugs states exec plugID onCmd now).2.1 =
        [.stateChanged { PlugID := plugID, EventState := ns },
         .stateUpdate (mkStateUpdate plugs "command" plugID ns now)] ∧
      (mkStateUpdate plugs "command" plugID ns now).Source = "command" ∧
      (setPower plugs states exec plugID onCmd now).2.2 = true) := by
  have hknown : (lookupPlug plugs plugID).isNone = false := by rw [hp]; rfl
  constructor
  · intro hfail
    simp [setPower, hknown, hfail]
  · intro body hok ns hns
    subst hns
    simp only [setPower, hknown, Bool.false_eq_true, if_false, hok, hs, Option.getD_some]
    constructor
    · rw [lookupState_updateState, hs]; rfl
    · exact ⟨by trivial, by trivial, by trivial⟩

/-- Witness for C3 at the sample registry with a failing and a succeeding
device call. -/
theorem setPower_atomicity_witness :
    lookupPlug samplePlugs "lamp" = some { ID := "lamp", Name := "Lamp", Address := "192.168.1.10" } ∧
    lookupState sampleStates "lamp" = some sampleStored ∧
    setPower samplePlugs sampleStates (fun _ => none) "lamp" true 9 =
      (sampleStates, [.errorEvent "lamp"], false) ∧
    lookupState (setPower samplePlugs sampleStates (fun _ => some .null) "lamp" true 9).1 "lamp" =
      some { sampleStored with On := true, LastUpdated := 9 } ∧
    (setPower samplePlugs sampleStates (fun _ => some .null) "lamp" true 9).2.2 = true := by
  have h := setPower_atomicity samplePlugs sampleStates (fun _ => none) "lamp" true 9
    { ID := "lamp", Name := "Lamp", Address := "192.168.1.10" } (by decide)
    sampleStored (by decide)
  have h2 := setPower_atomicity samplePlugs sampleStates (fun _ => some .null) "lamp" true 9
    { ID := "lamp", Name := "Lamp", Address := "192.168.1.10" } (by decide)
    sampleStored (by decide)
  have h3 := h2.2 .null rfl { sampleStored with On := true, LastUpdated := 9 } rfl
  exact ⟨by decide, by decide, h.1 rfl, h3.1, h3.2.2.2⟩

/-- C5 counterexample: a PUBLISH on the matching topic
`tele/tasmota/lamp/STATE` whose payload is not valid JSON produces no
`StateChangedEvent` at all — in particular no liveness delta carrying
`last_seen = now` and `mqtt_connected = true` as the claim asserts. -/
theorem onPublish_no_liveness_on_invalid_json :
    (onPublish sampleStates "tele/tasmota/lamp/STATE" none 5).2 = [] ∧
    ¬ ∃ e ∈ (onPublish sampleStates "tele/tasmota/lamp/STATE" none 5).2,
        e.EventState.LastSeen = 5 ∧ e.EventState.MQTTConnected = true := by
  constructor
  · rfl
  · intro ⟨e, he, _⟩
    rw [show (onPublish sampleStates "tele/tasmota/lamp/STATE" none 5).2 = [] from rfl] at he
    cases he

/-- C5 as amended: on a matching topic for a known plug the hook publishes a
`StateChangedEvent` only when the payload decodes to a JSON map carrying a
non-empty power state; the event sets `On` and `LastUpdated = now` and copies
everything else — including `LastSeen` and `MQTTConnected` — unchanged from
the stored state; a non-JSON payload, or one without a power state, produces
no event and leaves the state map unchanged. -/
theorem onPublish_power_only (states : List (String × State)) (topic : String)
    (payload : Option Json) (now : Nat) (plugID : String) (stored : State)
    (ht : topicPlugID topic = some plugID)
    (hs : lookupState states plugID = some stored) :
    (payload = none → onPublish states topic payload now = (states, [])) ∧
    (∀ j msg, payload = some j → unmarshalMap j = some msg →
      (extractPowerState msg = "" → onPublish states topic payload now = (states, [])) ∧
      (extractPowerState msg ≠ "" →
        ∀ ns, ns = { stored with On := extractPowerState msg == "ON", LastUpdated := now } →
        onPublish states topic payload now =
          (updateState states plugID ns, [{ PlugID := plugID, EventState := ns }]) ∧
        ns.LastSeen = stored.LastSeen ∧ ns.MQTTConnected = stored.MQTTConnected)) := by
  constructor
  · intro hp
    simp [onPublish, ht, hp]
  · intro j msg hp hm
    constructor
    · intro hempty
      have hb : (extractPowerState msg == "") = true := by simpa using hempty
      simp [onPublish, ht, hp, hm, hb]
    · intro hne ns hns
      have hb : (extractPowerState msg == "") = false := by simpa using hne
      subst hns
      refine ⟨?_, rfl, rfl⟩
      simp [onPublish, ht, hp, hm, hb, hs]

/-- Witness for the amended C5 at a concrete `{"POWER":"ON"}` payload. -/
theorem onPublish_power_only_witness :
    topicPlugID "tele/tasmota/lamp/STATE" = some "lamp" ∧
    (onPublish sampleStates "tele/tasmota/lamp/STATE"
        (some (.obj [("POWER", .str "ON")])) 5) =
      (updateState sampleStates "lamp"
        { sampleStored with On := true, LastUpdated := 5 },
       [{ PlugID := "lamp",
          EventState := { sampleStored with On := true, LastUpdated := 5 } }]) ∧
    ({ sampleStored with On := true, LastUpdated := 5 } : State).LastSeen =
      sampleStored.LastSeen := by
  have h := onPublish_power_only sampleStates "tele/tasmota/lamp/STATE"
    (some (.obj [("POWER", .str "ON")])) 5 "lamp" sampleStored (by decide) (by decide)
  have h2 := (h.2 (.obj [("POWER", .str "ON")]) [("POWER", .str "ON")] rfl rfl).2
    (by decide) { sampleStored with On := true, LastUpdated := 5 } (by decide)
  exact ⟨by decide, h2.1, h2.2.1⟩

/-- C6: evaluation of `GetStatus` at both response shapes.  The nested
`{"Status":{"Power":"ON"}}` body yields `On = true` with `LastUpdated = now`
and `LastSeen` untouched, but the flat `{"POWER":"ON"}` body yields
`On = false`: Go's `json.Unmarshal` into the nested struct succeeds on any
JSON object (absent members keep their zero values), so the flat fallback
branch is never reached for that body and `Status.Power` stays `""`. -/
theorem getStatus_flat_shape_ignored :
    ((getStatus samplePlugs sampleStates
        (fun _ => some (.obj [("Status", .obj [("Power", .str "ON")])])) "lamp" 7).2.2.map
      (fun s => (s.On, s.LastUpdated, s.LastSeen))) = some (true, 7, 1) ∧
    ((getStatus samplePlugs sampleStates
        (fun _ => some (.obj [("POWER", .str "ON")])) "lamp" 7).2.2.map
      (fun s => (s.On, s.LastUpdated, s.LastSeen))) = some (false, 7, 1) ∧
    unmarshalStatusResp (.obj [("POWER", .str "ON")]) = some "" := by
  exact ⟨rfl, rfl, rfl⟩

/-- C8 counterexample: the per-connection queue drops already at 10 queued
events — a queue of length 10 is well below the claimed capacity of 16, yet
a broadcast leaves it unchanged. -/
theorem broadcastSSE_drops_at_ten :
    (List.replicate 10 ({} : StateUpdateEvent)).length = 10 ∧ (10 : Nat) < 16 ∧
    broadcastSSE [List.replicate 10 ({} : StateUpdateEvent)] {} =
      [List.replicate 10 ({} : StateUpdateEvent)] := by
  exact ⟨by simp, by decide, rfl⟩

/-- C8 as amended: the per-connection send queue is bounded with capacity 10;
a broadcast treats every client's queue independently, appending when there
is room and dropping the event for that client alone when the queue is full
(never blocking); queues never exceed the capacity; and on connect the
snapshot is enqueued in order before new updates. -/
theorem sse_bounded_nonblocking :
    sseClientQueueCapacity = 10 ∧
    (∀ (pre post : List (List StateUpdateEvent)) (q : List StateUpdateEvent)
        (ev : StateUpdateEvent),
      broadcastSSE (pre ++ q :: post) ev =
        broadcastSSE pre ev ++ trySend q ev :: broadcastSSE post ev) ∧
    (∀ (q : List StateUpdateEvent) (ev : StateUpdateEvent),
      q.length < sseClientQueueCapacity → trySend q ev = q ++ [ev]) ∧
    (∀ (q : List StateUpdateEvent) (ev : StateUpdateEvent),
      sseClientQueueCapacity ≤ q.length → trySend q ev = q) ∧
    (∀ (q : List StateUpdateEvent) (ev : StateUpdateEvent),
      q.length ≤ sseClientQueueCapacity →
      (trySend q ev).length ≤ sseClientQueueCapacity) ∧
    (∀ snapshot : List StateUpdateEvent,
      snapshot.length ≤ sseClientQueueCapacity → sseConnectQueue snapshot = snapshot) := by
  refine ⟨rfl, ?_, ?_, ?_, ?_, ?_⟩
  · intro pre post q ev
    simp [broadcastSSE]
  · intro q ev h
    simp [trySend, h]
  · intro q ev h
    simp [trySend, Nat.not_lt_of_le h]
  · intro q ev h
    by_cases hlt : q.length < sseClientQueueCapacity
    · rw [trySend, if_pos hlt]
      simpa using hlt
    · rw [trySend, if_neg hlt]
      exact h
  · have key : ∀ (snapshot acc : List StateUpdateEvent),
        acc.length + snapshot.length ≤ sseClientQueueCapacity →
        snapshot.foldl trySend acc = acc ++ snapshot := by
      intro snapshot
      induction snapshot with
      | nil => intro acc _; simp
      | cons ev rest ih =>
        intro acc h
        have hlt : acc.length < sseClientQueueCapacity := by
          simp [List.length_cons] at h
          omega
        have h1 : List.foldl trySend acc (ev :: rest) =
            List.foldl trySend (trySend acc ev) rest := rfl
        rw [h1, trySend, if_pos hlt, ih]
        · simp
        · simp [List.length_cons] at h ⊢
          omega
    intro snapshot h
    have h2 := key snapshot [] (by simpa using h)
    simpa [sseConnectQueue] using h2

/-- Witness for the amended C8: an empty queue accepts an event, a full queue
of 10 drops it, and a one-event snapshot is flushed on connect. -/
theorem sse_bounded_nonblocking_witness :
    trySend [] ({} : StateUpdateEvent) = [{}] ∧
    trySend (List.replicate 10 ({} : StateUpdateEvent)) {} =
      List.replicate 10 ({} : StateUpdateEvent) ∧
    sseConnectQueue [({} : StateUpdateEvent)] = [{}] := by
  refine ⟨sse_bounded_nonblocking.2.2.1 [] {} (by decide),
    sse_bounded_nonblocking.2.2.2.1 (List.replicate 10 ({} : StateUpdateEvent)) {} (by decide),
    sse_bounded_nonblocking.2.2.2.2.2 [({} : StateUpdateEvent)] (by decide)⟩

/-- C9 counterexample: the eight-character all-letter PIN "abcdefgh" — not
eight digits — passes the whole configuration validation. -/
theorem configValidate_accepts_nondigit_pin :
    configValidate { HAPPin := "abcdefgh" } = true ∧
    "abcdefgh".length = 8 ∧ "abcdefgh".toList.all Char.isDigit = false := by
  exact ⟨by decide, by decide, by decide⟩

/-- C9 as amended: validation rejects every configuration whose HAP PIN does
not have exactly 8 characters, accepts the default "00102003", and — only the
length being checked — accepts an 8-character value with non-digits. -/
theorem configValidate_pin_length_only :
    (∀ c : Config, c.HAPPin.length ≠ 8 → configValidate c = false) ∧
    configValidate {} = true ∧
    configValidate { HAPPin := "abcdefgh" } = true := by
  refine ⟨fun c h => by simp [configValidate, h], by decide, by decide⟩

/-- Witness for the amended C9 at the too-short PIN "1234". -/
theorem configValidate_pin_length_only_witness :
    configValidate { HAPPin := "1234" } = false :=
  configValidate_pin_length_only.1 { HAPPin := "1234" } (by decide)

/-- C10: for a POST to `/toggle/<plug_id>`, the only request validation is
plug existence and the web-enabled flag — the command list is empty exactly
when one of the two fails — and any `action` value other than the exact
string "on", including an absent field, enqueues a turn-off command. -/
theorem handleToggle_off_by_default (plugs : List (String × Plug))
    (req : ToggleRequest) (hm : req.Method = "POST") :
    ((handleToggle plugs req).2 = [] ↔
      lookupPlug plugs req.PlugID = none ∨
      ∃ p, lookupPlug plugs req.PlugID = some p ∧ p.Web = some false) ∧
    (∀ p, lookupPlug plugs req.PlugID = some p → p.Web ≠ some false →
      (handleToggle plugs req).2 =
        [{ PlugID := req.PlugID, On := req.Action.getD "" == "on" }] ∧
      (req.Action.getD "" ≠ "on" →
        (handleToggle plugs req).2 = [{ PlugID := req.PlugID, On := false }])) := by
  have hm2 : ¬ req.Method ≠ "POST" := by simp [hm]
  constructor
  · cases hp : lookupPlug plugs req.PlugID with
    | none => simp [handleToggle, hm2, hp]
    | some p =>
      by_cases hw : p.Web = some false
      · simp [handleToggle, hm2, hp, hw]
      · simp [handleToggle, hm2, hp, hw]
  · intro p hp hw
    constructor
    · simp [handleToggle, hm2, hp, hw]
    · intro ha
      have hb : (req.Action.getD "" == "on") = false := by simpa using ha
      simp [handleToggle, hm2, hp, hw, hb]

/-- Witness for C10: "off", an absent action and "on" against the sample
registry, plus a rejected unknown plug. -/
theorem handleToggle_off_by_default_witness :
    ((handleToggle samplePlugs { PlugID := "lamp", Action := some "off" }).2 =
      [{ PlugID := "lamp", On := false }]) ∧
    ((handleToggle samplePlugs { PlugID := "lamp", Action := none }).2 =
      [{ PlugID := "lamp", On := false }]) ∧
    ((handleToggle samplePlugs { PlugID := "lamp", Action := some "on" }).2 =
      [{ PlugID := "lamp", On := true }]) ∧
    ((handleToggle samplePlugs { PlugID := "nope", Action := some "on" }).2 = []) := by
  have h1 := (handleToggle_off_by_default samplePlugs
    { PlugID := "lamp", Action := some "off" } rfl).2
    { ID := "lamp", Name := "Lamp", Address := "192.168.1.10" } (by decide) (by decide)
  have h2 := (handleToggle_off_by_default samplePlugs
    { PlugID := "lamp", Action := none } rfl).2
    { ID := "lamp", Name := "Lamp", Address := "192.168.1.10" } (by decide) (by decide)
  have h3 := (handleToggle_off_by_default samplePlugs
    { PlugID := "lamp", Action := some "on" } rfl).2
    { ID := "lamp", Name := "Lamp", Address := "192.168.1.10" } (by decide) (by decide)
  have h4 := (handleToggle_off_by_default samplePlugs
    { PlugID := "nope", Action := some "on" } rfl).1
  exact ⟨h1.2 (by decide), h2.2 (by decide), h3.1, h4.mpr (Or.inl (by decide))⟩

end TasmotaHomeKit
